import Mathlib

/-!
# Verification of the `state_space` crate

A shallow embedding of the `state_space` Rust crate (files `src/lib.rs` and
`src/sys_vec.rs`): a bounded system vector `SysVec` and a linear time-invariant
state-space model `StateSpace` with a forward-Euler `update` step.

The Rust code is generic over a numeric scalar type `T` (ordered, with
addition, multiplication, zero, one and conversion from `f64`); we instantiate
the embedding at the exact rationals `ℚ`, so every decimal constant of the
source and of the examples is represented exactly.  Fixed-size vectors
`SVector<T, N>` become functions `Fin n → ℚ` and matrices `SMatrix<T, R, C>`
become `Matrix (Fin r) (Fin c) ℚ`; in-place mutation (`&mut self`) becomes a
function returning the updated structure.
-/

namespace StateSpaceCrate

/-- Models the scalar `na::clamp` function of the nalgebra dependency, which
`SysVec::clamp` applies element-wise.  Its source is
`if val > min { if val < max { val } else { max } } else { min }`:
the comparison with the lower bound is performed first. -/
def naClamp (val lo hi : ℚ) : ℚ :=
  if lo < val then
    if val < hi then val else hi
  else lo

/-- The default bound magnitude of `SysVec`: the literal `9e99`.  The Rust
source obtains it by `T::from(9e99_f64)`; at the exact rationals this is the
decimal value `9 * 10 ^ 99`. -/
def boundSentinel : ℚ := 9 * 10 ^ 99

/-- The `SysVec<T, N>` struct of `src/sys_vec.rs`: a value vector `val`
together with lower bounds `lb` and upper bounds `ub`. -/
structure SysVec (n : ℕ) where
  val : Fin n → ℚ
  lb : Fin n → ℚ
  ub : Fin n → ℚ

namespace SysVec

/-- `SysVec::new()`: zero value, lower bounds `-9e99`, upper bounds `+9e99`. -/
def new (n : ℕ) : SysVec n where
  val := fun _ => 0
  lb := fun _ => -boundSentinel
  ub := fun _ => boundSentinel

/-- `SysVec::set_val`: full replacement of the value vector, no clamping. -/
def set_val (v : SysVec n) (w : Fin n → ℚ) : SysVec n :=
  { v with val := w }

/-- `SysVec::set_lb`: full replacement of the lower-bound vector. -/
def set_lb (v : SysVec n) (w : Fin n → ℚ) : SysVec n :=
  { v with lb := w }

/-- `SysVec::set_ub`: full replacement of the upper-bound vector. -/
def set_ub (v : SysVec n) (w : Fin n → ℚ) : SysVec n :=
  { v with ub := w }

/-- `SysVec::get_val`: returns a copy of the value vector. -/
def get_val (v : SysVec n) : Fin n → ℚ := v.val

/-- `SysVec::from_val`: every component of the value set to the given scalar,
default bounds (the source builds it as `Self::new().set_val(...)`). -/
def from_val (n : ℕ) (x : ℚ) : SysVec n :=
  (new n).set_val fun _ => x

/-- `SysVec::from_scalars`: value, lower and upper bounds each broadcast from
a scalar (the source builds it as `Self::new().set_val(..).set_lb(..).set_ub(..)`). -/
def from_scalars (n : ℕ) (x lo hi : ℚ) : SysVec n :=
  (((new n).set_val fun _ => x).set_lb fun _ => lo).set_ub fun _ => hi

/-- `SysVec::clamp`: `self.val = self.val.zip_zip_map(&self.lb, &self.ub,
|x, min, max| na::clamp(x, min, max))` — element-wise application of
`na::clamp` to the value, bounds untouched. -/
def clamp (v : SysVec n) : SysVec n :=
  { v with val := fun i => naClamp (v.val i) (v.lb i) (v.ub i) }

/-- `SysVec::update`: assign the new value, then clamp. -/
def update (v : SysVec n) (w : Fin n → ℚ) : SysVec n :=
  (v.set_val w).clamp

end SysVec

/-- The `StateSpace<T, NU, NX, NY>` struct of `src/lib.rs`: the four system
matrices, the three bounded vectors and the time step. -/
structure StateSpace (nu nx ny : ℕ) where
  a : Matrix (Fin nx) (Fin nx) ℚ
  b : Matrix (Fin nx) (Fin nu) ℚ
  c : Matrix (Fin ny) (Fin nx) ℚ
  d : Matrix (Fin ny) (Fin nu) ℚ
  u : SysVec nu
  x : SysVec nx
  y : SysVec ny
  dt : ℚ

namespace StateSpace

/-- `StateSpace::new()`: all-zero matrices, default `SysVec`s, `dt = 1`. -/
def new (nu nx ny : ℕ) : StateSpace nu nx ny where
  a := fun _ _ => 0
  b := fun _ _ => 0
  c := fun _ _ => 0
  d := fun _ _ => 0
  u := SysVec.new nu
  x := SysVec.new nx
  y := SysVec.new ny
  dt := 1

/-- `StateSpace::set_a`. -/
def set_a (s : StateSpace nu nx ny) (m : Matrix (Fin nx) (Fin nx) ℚ) :
    StateSpace nu nx ny := { s with a := m }

/-- `StateSpace::set_b`. -/
def set_b (s : StateSpace nu nx ny) (m : Matrix (Fin nx) (Fin nu) ℚ) :
    StateSpace nu nx ny := { s with b := m }

/-- `StateSpace::set_c`. -/
def set_c (s : StateSpace nu nx ny) (m : Matrix (Fin ny) (Fin nx) ℚ) :
    StateSpace nu nx ny := { s with c := m }

/-- `StateSpace::set_d`. -/
def set_d (s : StateSpace nu nx ny) (m : Matrix (Fin ny) (Fin nu) ℚ) :
    StateSpace nu nx ny := { s with d := m }

/-- `StateSpace::set_u`. -/
def set_u (s : StateSpace nu nx ny) (v : SysVec nu) : StateSpace nu nx ny :=
  { s with u := v }

/-- `StateSpace::set_x`. -/
def set_x (s : StateSpace nu nx ny) (v : SysVec nx) : StateSpace nu nx ny :=
  { s with x := v }

/-- `StateSpace::set_y`. -/
def set_y (s : StateSpace nu nx ny) (v : SysVec ny) : StateSpace nu nx ny :=
  { s with y := v }

/-- `StateSpace::set_dt`. -/
def set_dt (s : StateSpace nu nx ny) (t : ℚ) : StateSpace nu nx ny :=
  { s with dt := t }

/-- `StateSpace::update`, translated line by line from `src/lib.rs`:
clamp `u` and `x`; snapshot `u0`, `x0`; `x_dot = A·x0 + B·u0`;
`x1 = x0 + x_dot · dt`; store `x1` through `SysVec::update` (assign then
clamp); `yn = C·x0 + D·u0`; store `yn` through `SysVec::update`. -/
def update (s : StateSpace nu nx ny) : StateSpace nu nx ny :=
  let uc := s.u.clamp
  let xc := s.x.clamp
  let u0 := uc.get_val
  let x0 := xc.get_val
  let x_dot := s.a.mulVec x0 + s.b.mulVec u0
  let x1 := fun i => x0 i + x_dot i * s.dt
  let yn := s.c.mulVec x0 + s.d.mulVec u0
  { s with u := uc, x := xc.update x1, y := s.y.update yn }

end StateSpace

end StateSpaceCrate

namespace StateSpaceCrate

/-! ## Concrete instances used by the example-based properties -/

/-- The bound-enforcement example vector of the specification:
`value = [1, -314.1, 628.3]`, `lower = [-5, -5, -5]`, `upper = [9, 9, 9]`. -/
def exVec : SysVec 3 :=
  (((SysVec.new 3).set_val ![1, -3141/10, 6283/10]).set_lb fun _ => -5).set_ub
    fun _ => 9

/-- The scalar example system of the specification: `NX = NU = NY = 1`,
`A = [-1]`, `B = [1]`, `C = [1]`, `D = [0]`, `dt = 0.1`, initial state `0`,
constant input `u = 1` with default bounds. -/
def sys1 : StateSpace 1 1 1 :=
  (((((StateSpace.new 1 1 1).set_a fun _ _ => -1).set_b fun _ _ => 1).set_c
        fun _ _ => 1).set_dt (1/10)).set_u (SysVec.from_val 1 1)

/-- A system whose input violates its own bounds: `u` has value `10` with
bounds `[0, 2]` (and zero dynamics otherwise). -/
def sysOut : StateSpace 1 1 1 :=
  (StateSpace.new 1 1 1).set_u (SysVec.from_scalars 1 10 0 2)

/-- A vector with inverted bounds: value `10`, lower bound `5`, upper
bound `2`. -/
def invVec : SysVec 1 := SysVec.from_scalars 1 10 5 2

/-- A vector with well-ordered bounds: value `10`, lower bound `2`, upper
bound `5`. -/
def okVec : SysVec 1 := SysVec.from_scalars 1 10 2 5

/-- A vector with inverted bounds and a value strictly between them:
value `3`, lower bound `5`, upper bound `2`. -/
def invMidVec : SysVec 1 := SysVec.from_scalars 1 3 5 2

/-- The element-wise clamp rule in which the upper-bound comparison is
applied first: `ub` if `val > ub`, otherwise `lb` if `val < lb`, otherwise
`val`.  Stated from the specification's description for comparison with the
code's `naClamp`; the two differ when the bounds are inverted. -/
def clampUpperFirst (val lo hi : ℚ) : ℚ :=
  if hi < val then hi
  else if val < lo then lo
  else val

/-- The scalar example system after one `update`: state `0.1`, output `0`,
configuration unchanged. -/
def sys1After : StateSpace 1 1 1 where
  a := fun _ _ => -1
  b := fun _ _ => 1
  c := fun _ _ => 1
  d := fun _ _ => 0
  u := { val := fun _ => 1, lb := fun _ => -boundSentinel,
         ub := fun _ => boundSentinel }
  x := { val := fun _ => 1/10, lb := fun _ => -boundSentinel,
         ub := fun _ => boundSentinel }
  y := { val := fun _ => 0, lb := fun _ => -boundSentinel,
         ub := fun _ => boundSentinel }
  dt := 1/10

/-- `StateSpace::update` translated into the `Except` monad, in which any Rust
panic site (an `unwrap`, `expect`, out-of-bounds index or explicit panic)
would become an `Except.error`.  The body of `update` in `src/lib.rs`
contains no such site — it is built from clamping, matrix-vector products,
addition and scalar multiplication only — so no step of the translation can
throw. -/
def StateSpace.updateE {nu nx ny : ℕ} (s : StateSpace nu nx ny) :
    Except String (StateSpace nu nx ny) := do
  let uc := s.u.clamp
  let xc := s.x.clamp
  let u0 := uc.get_val
  let x0 := xc.get_val
  let x_dot := s.a.mulVec x0 + s.b.mulVec u0
  let x1 := fun i => x0 i + x_dot i * s.dt
  let yn := s.c.mulVec x0 + s.d.mulVec u0
  return { s with u := uc, x := xc.update x1, y := s.y.update yn }

/-! ## The claimed properties -/

/-- Two `SysVec`s with equal fields are equal. -/
theorem sysvec_eq_of_fields {n : ℕ} (v w : SysVec n) (hval : v.val = w.val)
    (hlb : v.lb = w.lb) (hub : v.ub = w.ub) : v = w := by
  cases v; cases w; cases hval; cases hlb; cases hub; rfl

/-- Two `StateSpace`s with equal fields are equal. -/
theorem statespace_eq_of_fields {nu nx ny : ℕ} (s t : StateSpace nu nx ny)
    (ha : s.a = t.a) (hb : s.b = t.b) (hc : s.c = t.c) (hd : s.d = t.d)
    (hu : s.u = t.u) (hx : s.x = t.x) (hy : s.y = t.y) (hdt : s.dt = t.dt) :
    s = t := by
  cases s; cases t
  cases ha; cases hb; cases hc; cases hd; cases hu; cases hx; cases hy
  cases hdt; rfl

/-- One `update` of the scalar example system, as an explicit record. -/
theorem sys1_update_eq : sys1.update = sys1After := by
  refine statespace_eq_of_fields _ _ rfl rfl rfl rfl ?_ ?_ ?_ rfl
  · refine sysvec_eq_of_fields _ _ ?_ rfl rfl
    funext i
    norm_num [sys1, sys1After, StateSpace.update, StateSpace.new,
      StateSpace.set_a, StateSpace.set_b, StateSpace.set_c, StateSpace.set_dt,
      StateSpace.set_u, SysVec.from_val, SysVec.new, SysVec.set_val,
      SysVec.clamp, SysVec.get_val, naClamp, boundSentinel]
  · refine sysvec_eq_of_fields _ _ ?_ rfl rfl
    funext i
    norm_num [sys1, sys1After, StateSpace.update, StateSpace.new,
      StateSpace.set_a, StateSpace.set_b, StateSpace.set_c, StateSpace.set_dt,
      StateSpace.set_u, SysVec.from_val, SysVec.new, SysVec.set_val,
      SysVec.clamp, SysVec.update, SysVec.get_val, naClamp, boundSentinel,
      Matrix.mulVec, Matrix.dotProduct, Fin.sum_univ_one]
  · refine sysvec_eq_of_fields _ _ ?_ rfl rfl
    funext i
    norm_num [sys1, sys1After, StateSpace.update, StateSpace.new,
      StateSpace.set_a, StateSpace.set_b, StateSpace.set_c, StateSpace.set_dt,
      StateSpace.set_u, SysVec.from_val, SysVec.new, SysVec.set_val,
      SysVec.clamp, SysVec.update, SysVec.get_val, naClamp, boundSentinel,
      Matrix.mulVec, Matrix.dotProduct, Fin.sum_univ_one]

/-- C1: one call to `update` computes, from the post-clamp snapshots `x0` of
the state and `u0` of the input taken at the start of the step, the
derivative `x_dot = A·x0 + B·u0`, stores the clamp of `x0 + x_dot·dt` to the
state bounds as the new state, and stores the clamp of `C·x0 + D·u0` —
evaluated at the pre-step snapshots, not the new state — to the output bounds
as the new output. -/
theorem update_euler_step {nu nx ny : ℕ} (s : StateSpace nu nx ny) :
    (s.update.x.val = fun i =>
      naClamp (s.x.clamp.val i +
          (s.a.mulVec s.x.clamp.val + s.b.mulVec s.u.clamp.val) i * s.dt)
        (s.x.lb i) (s.x.ub i)) ∧
    s.update.y.val = fun i =>
      naClamp ((s.c.mulVec s.x.clamp.val + s.d.mulVec s.u.clamp.val) i)
        (s.y.lb i) (s.y.ub i) :=
  ⟨rfl, rfl⟩

/-- C2: for every `SysVec` whose bounds satisfy `lb i ≤ ub i` at every index,
after `clamp` every component of the value lies between its bounds. -/
theorem clamp_within_bounds {n : ℕ} (v : SysVec n) (h : ∀ i, v.lb i ≤ v.ub i) :
    ∀ i, v.lb i ≤ v.clamp.val i ∧ v.clamp.val i ≤ v.ub i := by
  intro i
  have hi := h i
  have e : v.clamp.val i = naClamp (v.val i) (v.lb i) (v.ub i) := rfl
  rw [e]
  unfold naClamp
  split_ifs <;> constructor <;> linarith

/-- C2 witness: the specification's example: the value `[1, -314.1, 628.3]`
under bounds `[-5, 9]` is within bounds after `clamp`, and the clamped value
is exactly `[1, -5, 9]`. -/
theorem clamp_within_bounds_witness :
    (∀ i, exVec.lb i ≤ exVec.ub i) ∧
    (∀ i, exVec.lb i ≤ exVec.clamp.val i ∧ exVec.clamp.val i ≤ exVec.ub i) ∧
    exVec.clamp.val = ![1, -5, 9] := by
  have h : ∀ i, exVec.lb i ≤ exVec.ub i := by
    intro i
    norm_num [exVec, SysVec.new, SysVec.set_val, SysVec.set_lb, SysVec.set_ub]
  refine ⟨h, clamp_within_bounds exVec h, ?_⟩
  funext i
  fin_cases i <;>
    norm_num [exVec, SysVec.clamp, naClamp, SysVec.new, SysVec.set_val,
      SysVec.set_lb, SysVec.set_ub, boundSentinel]

/-- C3: for the scalar example system (`A = [-1]`, `B = [1]`, `C = [1]`,
`D = [0]`, `dt = 0.1`, `x0 = 0`, constant `u = 1`), the first `update` yields
state `0.1` and output `0`, and the second `update` yields state `0.19` and
output `0.1`. -/
theorem scalar_example_two_steps :
    (sys1.update.x.val = fun _ => 1/10) ∧
    (sys1.update.y.val = fun _ => 0) ∧
    (sys1.update.update.x.val = fun _ => 19/100) ∧
    sys1.update.update.y.val = fun _ => 1/10 := by
  rw [sys1_update_eq]
  have h1 : sys1After.x.clamp.val = fun _ : Fin 1 => (1/10 : ℚ) := by
    funext i
    have e : sys1After.x.clamp.val i =
        naClamp (1/10) (-boundSentinel) boundSentinel := rfl
    rw [e]
    norm_num [naClamp, boundSentinel]
  have h2 : sys1After.u.clamp.val = fun _ : Fin 1 => (1 : ℚ) := by
    funext i
    have e : sys1After.u.clamp.val i =
        naClamp 1 (-boundSentinel) boundSentinel := rfl
    rw [e]
    norm_num [naClamp, boundSentinel]
  refine ⟨rfl, rfl, ?_, ?_⟩
  · funext i
    show sys1After.update.x.val i = 19/100
    rw [Subsingleton.elim i 0]
    have e : sys1After.update.x.val 0 =
        naClamp (sys1After.x.clamp.val 0 +
          (sys1After.a.mulVec sys1After.x.clamp.val 0 +
            sys1After.b.mulVec sys1After.u.clamp.val 0) * (1/10))
          (-boundSentinel) boundSentinel := rfl
    rw [e, h1, h2]
    simp only [Matrix.mulVec, Matrix.dotProduct, Fin.sum_univ_one]
    norm_num [sys1After, naClamp, boundSentinel]
  · funext i
    show sys1After.update.y.val i = 1/10
    rw [Subsingleton.elim i 0]
    have e : sys1After.update.y.val 0 =
        naClamp (sys1After.c.mulVec sys1After.x.clamp.val 0 +
            sys1After.d.mulVec sys1After.u.clamp.val 0)
          (-boundSentinel) boundSentinel := rfl
    rw [e, h1, h2]
    simp only [Matrix.mulVec, Matrix.dotProduct, Fin.sum_univ_one]
    norm_num [sys1After, naClamp, boundSentinel]

/-- C4 as stated is false: `update` clamps the input vector before reading
it, so an input value lying outside its own bounds (here value `10` with
bounds `[0, 2]`) is changed by the call. -/
theorem update_changes_out_of_bounds_input :
    sysOut.update.u.val 0 ≠ sysOut.u.val 0 := by
  norm_num [sysOut, StateSpace.update, StateSpace.new, StateSpace.set_u,
    SysVec.from_scalars, SysVec.new, SysVec.set_val, SysVec.set_lb,
    SysVec.set_ub, SysVec.clamp, SysVec.get_val, naClamp]

/-- C4 amended: `update` leaves the input's bounds unchanged and replaces its
value by the clamp of the pre-call value to those bounds; in particular the
input is left fully unchanged whenever its value already satisfies its
bounds. -/
theorem update_input_clamped_only {nu nx ny : ℕ} (s : StateSpace nu nx ny) :
    s.update.u.lb = s.u.lb ∧ s.update.u.ub = s.u.ub ∧
    (s.update.u.val = fun i => naClamp (s.u.val i) (s.u.lb i) (s.u.ub i)) ∧
    ((∀ i, s.u.lb i ≤ s.u.val i ∧ s.u.val i ≤ s.u.ub i) →
      s.update.u.val = s.u.val) := by
  refine ⟨rfl, rfl, rfl, fun h => ?_⟩
  funext i
  have h1 := (h i).1
  have h2 := (h i).2
  have e : s.update.u.val i = naClamp (s.u.val i) (s.u.lb i) (s.u.ub i) := rfl
  rw [e]
  unfold naClamp
  split_ifs <;> linarith

/-- C4 amended witness: the scalar example system's input value `1` lies
within its default bounds and is unchanged by `update`. -/
theorem update_input_clamped_only_witness :
    (∀ i, sys1.u.lb i ≤ sys1.u.val i ∧ sys1.u.val i ≤ sys1.u.ub i) ∧
    sys1.update.u.val = sys1.u.val := by
  have h : ∀ i, sys1.u.lb i ≤ sys1.u.val i ∧ sys1.u.val i ≤ sys1.u.ub i := by
    intro i
    constructor <;>
      norm_num [sys1, StateSpace.new, StateSpace.set_a, StateSpace.set_b,
        StateSpace.set_c, StateSpace.set_dt, StateSpace.set_u, SysVec.from_val,
        SysVec.new, SysVec.set_val, boundSentinel]
  exact ⟨h, (update_input_clamped_only sys1).2.2.2 h⟩

/-- C5 as stated is false: with inverted bounds (lower `5`, upper `2`) the
value `10` clamps to `2` on the first call and to `5` on the second, so a
second `clamp` changes the value again. -/
theorem clamp_not_idempotent_inverted :
    invVec.clamp.clamp.val ≠ invVec.clamp.val := by
  intro h
  have h0 := congrFun h 0
  norm_num [invVec, SysVec.from_scalars, SysVec.new, SysVec.set_val,
    SysVec.set_lb, SysVec.set_ub, SysVec.clamp, naClamp] at h0

/-- C5 amended: for every `SysVec` whose bounds satisfy `lb i ≤ ub i` at
every index, calling `clamp` twice yields the same value as calling it
once. -/
theorem clamp_idempotent_of_ordered {n : ℕ} (v : SysVec n)
    (h : ∀ i, v.lb i ≤ v.ub i) : v.clamp.clamp.val = v.clamp.val := by
  funext i
  have hi := h i
  have e : v.clamp.clamp.val i =
      naClamp (naClamp (v.val i) (v.lb i) (v.ub i)) (v.lb i) (v.ub i) := rfl
  have e2 : v.clamp.val i = naClamp (v.val i) (v.lb i) (v.ub i) := rfl
  rw [e, e2]
  unfold naClamp
  split_ifs <;> linarith

/-- C5 amended witness: for the vector with value `10` and ordered bounds
`[2, 5]`, a second `clamp` leaves the value fixed. -/
theorem clamp_idempotent_of_ordered_witness :
    (∀ i, okVec.lb i ≤ okVec.ub i) ∧
    okVec.clamp.clamp.val = okVec.clamp.val := by
  have h : ∀ i, okVec.lb i ≤ okVec.ub i := by
    intro i
    norm_num [okVec, SysVec.from_scalars, SysVec.new, SysVec.set_val,
      SysVec.set_lb, SysVec.set_ub]
  exact ⟨h, clamp_idempotent_of_ordered okVec h⟩

/-- C6: `StateSpace::new` yields all-zero matrices, vectors with all-zero
values and `dt = 1`; `SysVec::new` yields an all-zero value with every lower
bound `-9e99` and every upper bound `+9e99`. -/
theorem new_default_values (nu nx ny n : ℕ) :
    (StateSpace.new nu nx ny).a = 0 ∧ (StateSpace.new nu nx ny).b = 0 ∧
    (StateSpace.new nu nx ny).c = 0 ∧ (StateSpace.new nu nx ny).d = 0 ∧
    ((StateSpace.new nu nx ny).u.val = fun _ => 0) ∧
    ((StateSpace.new nu nx ny).x.val = fun _ => 0) ∧
    ((StateSpace.new nu nx ny).y.val = fun _ => 0) ∧
    (StateSpace.new nu nx ny).dt = 1 ∧
    ((SysVec.new n).val = fun _ => 0) ∧
    ((SysVec.new n).lb = fun _ => -(9 * 10 ^ 99)) ∧
    ((SysVec.new n).ub = fun _ => 9 * 10 ^ 99) :=
  ⟨rfl, rfl, rfl, rfl, rfl, rfl, rfl, rfl, rfl, rfl, rfl⟩

/-- C7: every call of `update` completes normally: on every configured model
the `Except`-monad translation of `update` returns `Except.ok` of the pure
result, never an error. -/
theorem update_never_fails {nu nx ny : ℕ} (s : StateSpace nu nx ny) :
    s.updateE = Except.ok s.update :=
  rfl

/-- C8: `set_val`, `set_lb` and `set_ub` each replace exactly their own field
with the given vector — with no clamping, even when the new value violates
the current bounds — and leave the other two fields unchanged. -/
theorem setters_replace_exactly_own_field {n : ℕ} (v : SysVec n)
    (w : Fin n → ℚ) :
    ((v.set_val w).val = w ∧ (v.set_val w).lb = v.lb ∧
      (v.set_val w).ub = v.ub) ∧
    ((v.set_lb w).lb = w ∧ (v.set_lb w).val = v.val ∧
      (v.set_lb w).ub = v.ub) ∧
    ((v.set_ub w).ub = w ∧ (v.set_ub w).val = v.val ∧
      (v.set_ub w).lb = v.lb) :=
  ⟨⟨rfl, rfl, rfl⟩, ⟨rfl, rfl, rfl⟩, ⟨rfl, rfl, rfl⟩⟩

/-- C9: `update` changes at most the value fields of `u`, `x` and `y`: the
four matrices, the time step `dt` and the lower and upper bound vectors of
`u`, `x` and `y` are all unchanged by the call. -/
theorem update_preserves_configuration {nu nx ny : ℕ}
    (s : StateSpace nu nx ny) :
    s.update.a = s.a ∧ s.update.b = s.b ∧ s.update.c = s.c ∧
    s.update.d = s.d ∧ s.update.dt = s.dt ∧
    s.update.u.lb = s.u.lb ∧ s.update.u.ub = s.u.ub ∧
    s.update.x.lb = s.x.lb ∧ s.update.x.ub = s.x.ub ∧
    s.update.y.lb = s.y.lb ∧ s.update.y.ub = s.y.ub :=
  ⟨rfl, rfl, rfl, rfl, rfl, rfl, rfl, rfl, rfl, rfl, rfl⟩

/-- C10 as stated is false: with inverted bounds (lower `5`, upper `2`) the
value `3` exceeds the upper bound, yet `clamp` stores the lower bound `5`,
not the upper bound `2` predicted by the upper-bound-first rule. -/
theorem clamp_differs_from_upper_first :
    invMidVec.clamp.val 0 ≠
      clampUpperFirst (invMidVec.val 0) (invMidVec.lb 0) (invMidVec.ub 0) := by
  norm_num [invMidVec, SysVec.from_scalars, SysVec.new, SysVec.set_val,
    SysVec.set_lb, SysVec.set_ub, SysVec.clamp, naClamp, clampUpperFirst]

/-- C10 amended: `clamp` is element-wise with the lower-bound comparison
applied first: the new value is `lb i` if `val i ≤ lb i`, otherwise `ub i` if
`val i ≥ ub i`, otherwise `val i` unchanged; so with inverted bounds a value
at or below `lb i` — including every value between `ub i` and `lb i` —
becomes `lb i`, and a value above `lb i` becomes `ub i`. -/
theorem clamp_lower_bound_first {n : ℕ} (v : SysVec n) (i : Fin n) :
    v.clamp.val i =
      if v.val i ≤ v.lb i then v.lb i
      else if v.ub i ≤ v.val i then v.ub i
      else v.val i := by
  have e : v.clamp.val i = naClamp (v.val i) (v.lb i) (v.ub i) := rfl
  rw [e]
  unfold naClamp
  split_ifs <;> linarith

end StateSpaceCrate
